import Mathlib

set_option maxHeartbeats 1000000
set_option linter.unusedVariables false

/-!
# LocalMoney contracts: a shallow embedding

This file embeds the LocalMoney programs in Lean and proves properties of
the embedded code.

Embedded sources:
* `contracts/solana/programs/trade/src/lib.rs` — the trade state machine
  (`create_trade`, `accept_trade`, `complete_trade`, `cancel_trade`,
  `dispute_trade`, `deposit_escrow`).
* `contracts/solana/programs/price/src/lib.rs` — the price oracle
  (`verify_price_for_trade`, `PriceState`).
* `contracts/solana/programs/offer/src/lib.rs` — the offer program
  (`create_offer`, `take_offer`).
* `contracts/cosmwasm/contracts/trade/src/ibc.rs` — the IBC relay handlers
  (`ibc_packet_receive`, channel counters).

Modelling conventions:
* Pubkeys are `Nat`; u64 quantities are `Nat` with explicit `< 2^64`
  checks exactly where the source performs checked arithmetic (SPL token
  transfers use checked add/sub; `take_offer` uses `checked_mul`).
* Each Solana instruction is a function `TState → Except TxError TState`
  threading the whole pre-state to the whole post-state.  Failure carries
  no state: the hosting ledger executes an instruction atomically and
  discards every effect of a failed transaction.  `applyCall` is that
  ledger-level semantics.
* Anchor account constraints (`constraint = ...`) run before the handler
  body; a violated constraint aborts the transaction
  (`TxError.ConstraintViolation`).
* SPL token accounts are modelled one per owner: `makerBal`, `takerBal`
  and `otherBal` are the spendable balances of the maker, the bound taker
  and any third party, and `escrowBal` is the trade's escrow token
  account (authority = the trade PDA).
* The profile program is not among the provided sources; its
  `record_trade_completion` CPI only bumps a counter in a separate
  account, so it is modelled as a side-effect-free success.  The hub
  `invoke` inside `verify_price_for_trade` (empty instruction data) is
  likewise modelled as succeeding.
-/

instance {ε α : Type} [DecidableEq ε] [DecidableEq α] : DecidableEq (Except ε α)
  | Except.ok a, Except.ok b =>
      if h : a = b then Decidable.isTrue (by rw [h])
      else Decidable.isFalse (by simp [h])
  | Except.ok _, Except.error _ => Decidable.isFalse (by simp)
  | Except.error _, Except.ok _ => Decidable.isFalse (by simp)
  | Except.error e, Except.error f =>
      if h : e = f then Decidable.isTrue (by rw [h])
      else Decidable.isFalse (by simp [h])

/-- 2^64, the exclusive upper bound of u64 arithmetic. -/
def U64 : Nat := 18446744073709551616

/-- `TradeStatus` from `trade/src/lib.rs`. -/
inductive TradeStatus
  | Created
  | Open
  | InProgress
  | Completed
  | Cancelled
  | Disputed
deriving DecidableEq, Repr

/-- The `Trade` account from `trade/src/lib.rs`. -/
structure Trade where
  maker : Nat
  taker : Option Nat
  amount : Nat
  price : Nat
  token_mint : Nat
  escrow_account : Nat
  status : TradeStatus
  created_at : Int
  updated_at : Int
  bump : Nat
deriving DecidableEq, Repr

/-- `PriceState` from `price/src/lib.rs` (it stores no prices). -/
structure PriceState where
  is_initialized : Bool
  admin : Nat
  price_provider : Nat
deriving DecidableEq, Repr

/-- Error outcomes of a trade-program transaction: the program's own
`TradeError` variants, the price program's `NotInitialized`, SPL token
transfer failures, and Anchor account-constraint violations. -/
inductive TxError
  | InvalidTradeStatus
  | UnauthorizedDisputer
  | UnauthorizedDepositor
  | ConstraintViolation
  | InsufficientFunds
  | Overflow
  | NotInitialized
deriving DecidableEq, Repr

/-- SPL `token::transfer`: checked subtraction from the source and checked
addition to the destination, as the token program performs them. -/
def tokenTransfer (fromBal toBal amt : Nat) : Except TxError (Nat × Nat) :=
  if fromBal < amt then Except.error TxError.InsufficientFunds
  else if toBal + amt ≥ U64 then Except.error TxError.Overflow
  else Except.ok (fromBal - amt, toBal + amt)

/-- The on-chain state touched by the trade program: the `Trade` account,
the three party token accounts and the escrow token account. -/
structure TState where
  trade : Trade
  makerBal : Nat
  takerBal : Nat
  otherBal : Nat
  escrowBal : Nat
deriving DecidableEq, Repr

/-- Balance of the token account owned by `pk`. -/
def TState.balOf (s : TState) (pk : Nat) : Nat :=
  if pk = s.trade.maker then s.makerBal
  else if some pk = s.trade.taker then s.takerBal
  else s.otherBal

/-- Overwrite the balance of the token account owned by `pk`. -/
def TState.setBal (s : TState) (pk v : Nat) : TState :=
  if pk = s.trade.maker then { s with makerBal := v }
  else if some pk = s.trade.taker then { s with takerBal := v }
  else { s with otherBal := v }

/-- `create_trade` (trade/src/lib.rs:18-33): initialises the `Trade`
account with status `Created`; the handler performs no validation of
`amount` or `price`. -/
def create_trade (maker amount price token_mint escrow_account bump : Nat)
    (now : Int) : Trade :=
  { maker := maker
    taker := none
    amount := amount
    price := price
    token_mint := token_mint
    escrow_account := escrow_account
    status := TradeStatus.Created
    created_at := now
    updated_at := now
    bump := bump }

/-- `verify_price_for_trade` (price/src/lib.rs:52-75): requires the oracle
to be initialised, then succeeds.  The handler ignores `trade_price`
entirely — the comment in the source reads "Add price verification logic
here"; no comparison against any oracle price is performed (and
`PriceState` stores no prices). -/
def verify_price_for_trade (state : PriceState) (trade_price : Nat) :
    Except TxError Unit :=
  if state.is_initialized then Except.ok () else Except.error TxError.NotInitialized

/-- `accept_trade` (trade/src/lib.rs:35-48): requires status `Open`, binds
the signing taker and moves to `InProgress`.  No check that the taker
differs from the maker, and no authorization beyond a signature. -/
def accept_trade (s : TState) (taker : Nat) (now : Int) : Except TxError TState :=
  if s.trade.status = TradeStatus.Open then
    Except.ok { s with trade :=
      { s.trade with taker := some taker, status := TradeStatus.InProgress,
                     updated_at := now } }
  else Except.error TxError.InvalidTradeStatus

/-- `complete_trade` (trade/src/lib.rs:50-121).  Anchor constraints bind
the maker signer to `trade.maker` and the taker signer to
`trade.taker.unwrap()`; the handler requires status `InProgress`, runs the
price CPI, transfers `trade.amount` from escrow to the taker's token
account, records completions on both profiles (modelled as succeeding),
and sets status `Completed`. -/
def complete_trade (s : TState) (oracle : PriceState) (makerS takerS : Nat)
    (now : Int) : Except TxError TState :=
  if makerS ≠ s.trade.maker then Except.error TxError.ConstraintViolation
  else if s.trade.taker ≠ some takerS then Except.error TxError.ConstraintViolation
  else if s.trade.status ≠ TradeStatus.InProgress then
    Except.error TxError.InvalidTradeStatus
  else
    match verify_price_for_trade oracle s.trade.price with
    | Except.error e => Except.error e
    | Except.ok _ =>
      match tokenTransfer s.escrowBal (s.balOf takerS) s.trade.amount with
      | Except.error e => Except.error e
      | Except.ok (fromBal, toBal) =>
        let s1 := { (s.setBal takerS toBal) with escrowBal := fromBal }
        Except.ok { s1 with trade :=
          { s1.trade with status := TradeStatus.Completed, updated_at := now } }

/-- `cancel_trade` (trade/src/lib.rs:123-163).  The Anchor constraint
binds the signing maker to `trade.maker`; the handler requires status
`Open` (only), transfers `trade.amount` from escrow back to the maker's
token account, and sets status `Cancelled`. -/
def cancel_trade (s : TState) (caller : Nat) (now : Int) : Except TxError TState :=
  if caller ≠ s.trade.maker then Except.error TxError.ConstraintViolation
  else if s.trade.status ≠ TradeStatus.Open then
    Except.error TxError.InvalidTradeStatus
  else
    match tokenTransfer s.escrowBal s.makerBal s.trade.amount with
    | Except.error e => Except.error e
    | Except.ok (fromBal, toBal) =>
      Except.ok { s with
        escrowBal := fromBal
        makerBal := toBal
        trade := { s.trade with status := TradeStatus.Cancelled, updated_at := now } }

/-- `dispute_trade` (trade/src/lib.rs:165-185): the disputer must be the
maker or the bound taker (checked first), the status must be `InProgress`
(checked second); funds stay in escrow. -/
def dispute_trade (s : TState) (disputer : Nat) (now : Int) : Except TxError TState :=
  if s.trade.maker = disputer ∨ s.trade.taker = some disputer then
    if s.trade.status = TradeStatus.InProgress then
      Except.ok { s with trade :=
        { s.trade with status := TradeStatus.Disputed, updated_at := now } }
    else Except.error TxError.InvalidTradeStatus
  else Except.error TxError.UnauthorizedDisputer

/-- `deposit_escrow` (trade/src/lib.rs:187-220).  The token transfer of
the caller-chosen `amount` from the depositor's token account into escrow
is issued FIRST; only afterwards does the handler check that the
depositor is the maker and that the status is `Created`, then set status
`Open`. -/
def deposit_escrow (s : TState) (depositor amount : Nat) (now : Int) :
    Except TxError TState :=
  match tokenTransfer (s.balOf depositor) s.escrowBal amount with
  | Except.error e => Except.error e
  | Except.ok (fromBal, toBal) =>
    let s1 := { (s.setBal depositor fromBal) with escrowBal := toBal }
    if s1.trade.maker ≠ depositor then Except.error TxError.UnauthorizedDepositor
    else if s1.trade.status ≠ TradeStatus.Created then
      Except.error TxError.InvalidTradeStatus
    else
      Except.ok { s1 with trade :=
        { s1.trade with status := TradeStatus.Open, updated_at := now } }

/-- One transaction against the trade program: an entry point together
with its caller-supplied arguments and account context. -/
inductive Call
  | accept (taker : Nat) (now : Int)
  | complete (oracle : PriceState) (makerS takerS : Nat) (now : Int)
  | cancel (caller : Nat) (now : Int)
  | dispute (disputer : Nat) (now : Int)
  | deposit (depositor amount : Nat) (now : Int)
deriving DecidableEq, Repr

/-- Dispatch a call to the corresponding embedded entry point. -/
def exec : Call → TState → Except TxError TState
  | Call.accept t n, s => accept_trade s t n
  | Call.complete o mS tS n, s => complete_trade s o mS tS n
  | Call.cancel c n, s => cancel_trade s c n
  | Call.dispute d n, s => dispute_trade s d n
  | Call.deposit d a n, s => deposit_escrow s d a n

/-- Ledger-level semantics of a transaction: the hosting ledger commits
the post-state on success and discards every effect on failure. -/
def applyCall (c : Call) (s : TState) : TState :=
  match exec c s with
  | Except.ok s' => s'
  | Except.error _ => s

/-- One successful transition of the trade state machine. -/
def stepR (s s' : TState) : Prop := ∃ c, exec c s = Except.ok s'

/-- The post-`create_trade` state: a fresh `Trade` account plus the
freshly initialised (empty) escrow token account and the parties'
starting balances. -/
def mkInit (maker amount price token_mint escrow_account bump : Nat) (now : Int)
    (makerBal takerBal otherBal : Nat) : TState :=
  { trade := create_trade maker amount price token_mint escrow_account bump now
    makerBal := makerBal
    takerBal := takerBal
    otherBal := otherBal
    escrowBal := 0 }

/-- The statuses the specification calls the funded set:
EscrowFunded (`Open`), Accepted (`InProgress`), and `Disputed`. -/
def fundedStatus (st : TradeStatus) : Prop :=
  st = TradeStatus.Open ∨ st = TradeStatus.InProgress ∨ st = TradeStatus.Disputed

instance (st : TradeStatus) : Decidable (fundedStatus st) := by
  unfold fundedStatus; infer_instance

/-- The escrow invariant claimed by the specification: the escrow balance
is positive iff the status is in the funded set, equals `trade.amount`
while there, and is zero otherwise. -/
def escrowInv (s : TState) : Prop :=
  (0 < s.escrowBal ↔ fundedStatus s.trade.status)
  ∧ (fundedStatus s.trade.status → s.escrowBal = s.trade.amount)
  ∧ (¬ fundedStatus s.trade.status → s.escrowBal = 0)

instance (s : TState) : Decidable (escrowInv s) := by
  unfold escrowInv; infer_instance

example : (mkInit 1 100 50 7 8 255 0 100 0 0).escrowBal = 0 := by decide

example :
    exec (Call.deposit 1 100 1) (mkInit 1 100 50 7 8 255 0 100 0 0) =
      Except.ok { trade := { maker := 1, taker := none, amount := 100, price := 50, token_mint := 7, escrow_account := 8, status := TradeStatus.Open, created_at := 0, updated_at := 1, bump := 255 }, makerBal := 0, takerBal := 0, otherBal := 0, escrowBal := 100 } := by
  decide

/-! ## Offer program (`contracts/solana/programs/offer/src/lib.rs`) -/

/-- `OfferStatus` from `offer/src/lib.rs`. -/
inductive OfferStatus
  | Active
  | Paused
  | Closed
deriving DecidableEq, Repr

/-- The `Offer` account from `offer/src/lib.rs`. -/
structure Offer where
  creator : Nat
  token_mint : Nat
  amount : Nat
  price_per_token : Nat
  min_amount : Nat
  max_amount : Nat
  status : OfferStatus
  created_at : Int
  updated_at : Int
deriving DecidableEq, Repr

/-- `OfferError` from `offer/src/lib.rs`. -/
inductive OfferError
  | InvalidStatus
  | InvalidAmount
  | InvalidAmounts
  | CalculationError
deriving DecidableEq, Repr

/-- `create_offer` (offer/src/lib.rs:11-36): requires
`min_amount <= max_amount && max_amount <= amount` (rejecting with
`InvalidAmounts`), then creates the `Active` offer record.  The handler
performs no validation of `price_per_token`. -/
def create_offer (creator token_mint amount price_per_token min_amount
    max_amount : Nat) (now : Int) : Except OfferError Offer :=
  if min_amount ≤ max_amount ∧ max_amount ≤ amount then
    Except.ok
      { creator := creator
        token_mint := token_mint
        amount := amount
        price_per_token := price_per_token
        min_amount := min_amount
        max_amount := max_amount
        status := OfferStatus.Active
        created_at := now
        updated_at := now }
  else Except.error OfferError.InvalidAmounts

/-- u64 `checked_mul`: `some` of the product when it fits in a u64,
`none` on overflow. -/
def checkedMul64 (a b : Nat) : Option Nat :=
  if a * b < U64 then some (a * b) else none

/-- `take_offer` (offer/src/lib.rs:108-159): requires the offer `Active`
(`InvalidStatus`), requires `min_amount <= amount <= max_amount`
(`InvalidAmount`), computes `total_price = amount * price_per_token` with
`checked_mul` (failing with `CalculationError` on overflow), and then
issues the trade-creation CPI with `(amount, total_price)`.  The returned
pair is the argument pair of that CPI; an error means no trade-creation
instruction was issued. -/
def take_offer (offer : Offer) (amount : Nat) : Except OfferError (Nat × Nat) :=
  if offer.status ≠ OfferStatus.Active then Except.error OfferError.InvalidStatus
  else if ¬ (offer.min_amount ≤ amount ∧ amount ≤ offer.max_amount) then
    Except.error OfferError.InvalidAmount
  else
    match checkedMul64 amount offer.price_per_token with
    | none => Except.error OfferError.CalculationError
    | some total_price => Except.ok (amount, total_price)

/-! ## IBC relay (`contracts/cosmwasm/contracts/trade/src/ibc.rs`)

The CosmWasm trade contract's `crate::contract` module (`_create_trade`,
`cancel_request`) and the `localmoney_protocol` crate are not among the
provided sources; the receive handler is therefore parameterised over
those two local-application functions, and the properties proved below
hold for every behaviour of them.  Errors are modelled by the string the
handler would obtain from `error.to_string()`. -/

/-- Modelled from the spec: `NewTrade` (from `localmoney_protocol::trade`,
not among the provided sources) is the payload needed to construct a
Trade; its individual fields are irrelevant to the relay handlers, so it
is abstracted to an opaque payload value. -/
structure NewTrade where
  payload : Nat
deriving DecidableEq, Repr

/-- `IbcExecuteMsg` from `ibc.rs`: the tagged union of relayable
requests. -/
inductive IbcExecuteMsg
  | Create (source_address source_chain : String) (new_trade : NewTrade)
  | CancelRequest (source_address source_chain : String) (trade_id : Nat)
deriving DecidableEq, Repr

/-- The raw packet data: either the serialisation of a well-formed
`IbcExecuteMsg`, or bytes `from_binary` rejects with a decode error. -/
inductive PacketData
  | wellFormed (msg : IbcExecuteMsg)
  | malformed (err : String)
deriving DecidableEq, Repr

/-- `from_binary` on the packet data. -/
def from_binary : PacketData → Except String IbcExecuteMsg
  | PacketData.wellFormed msg => Except.ok msg
  | PacketData.malformed err => Except.error err

/-- The `Ack` enum from `ibc.rs` (binary acks are kept structured). -/
inductive Ack
  | Result (data : List Nat)
  | Error (err : String)
deriving DecidableEq, Repr

/-- `make_ack_success`: `Ack::Result(b"1")`. -/
def make_ack_success : Ack := Ack.Result [49]

/-- `make_ack_fail`. -/
def make_ack_fail (err : String) : Ack := Ack.Error err

/-- A CosmWasm `Response` as the relay sees it: submessages and events
(abstracted to identifiers). -/
structure CwResponse where
  messages : List Nat
  events : List Nat
deriving DecidableEq, Repr

/-- An `IbcReceiveResponse`: the single acknowledgment set by `set_ack`,
plus forwarded submessages and events. -/
structure IbcReceiveResponse where
  ack : Ack
  messages : List Nat
  events : List Nat
deriving DecidableEq, Repr

/-- An inbound IBC packet as `ibc_packet_receive` consumes it. -/
structure IbcPacket where
  dest_channel : String
  data : PacketData
deriving DecidableEq, Repr

/-- `execute_create_trade` (ibc.rs:210-224): apply `_create_trade`
locally; on success set the success ack and forward the submessages; a
failure propagates (via `?`) to the caller. -/
def execute_create_trade (createH : NewTrade → String → Except String (List Nat))
    (channel : String) (new_trade : NewTrade) (source_chain : String) :
    Except String IbcReceiveResponse :=
  match createH new_trade source_chain with
  | Except.error e => Except.error e
  | Except.ok sub_msgs =>
    Except.ok { ack := make_ack_success, messages := sub_msgs, events := [] }

/-- `execute_cancel_trade` (ibc.rs:226-256): apply `cancel_request`
locally; on success set the success ack and forward messages and events;
on failure return a normal response carrying the failure ack. -/
def execute_cancel_trade (cancelH : String → Nat → Except String CwResponse)
    (channel source_address : String) (source_chain : String) (trade_id : Nat) :
    Except String IbcReceiveResponse :=
  match cancelH source_address trade_id with
  | Except.ok response =>
    Except.ok { ack := make_ack_success, messages := response.messages,
                events := response.events }
  | Except.error e =>
    Except.ok { ack := make_ack_fail e, messages := [], events := [] }

/-- `do_ibc_packet_receive` (ibc.rs:79-100): decode the payload and
dispatch on the message tag. -/
def do_ibc_packet_receive (createH : NewTrade → String → Except String (List Nat))
    (cancelH : String → Nat → Except String CwResponse) (p : IbcPacket) :
    Except String IbcReceiveResponse :=
  match from_binary p.data with
  | Except.error e => Except.error e
  | Except.ok (IbcExecuteMsg.Create source_address source_chain new_trade) =>
    execute_create_trade createH p.dest_channel new_trade source_chain
  | Except.ok (IbcExecuteMsg.CancelRequest source_address source_chain trade_id) =>
    execute_cancel_trade cancelH p.dest_channel source_address source_chain trade_id

/-- `ibc_packet_receive` (ibc.rs:61-77): wrap all handling; on any error
commit a normal response carrying the failure ack instead of propagating
the error. -/
def ibc_packet_receive (createH : NewTrade → String → Except String (List Nat))
    (cancelH : String → Nat → Except String CwResponse) (p : IbcPacket) :
    Except String IbcReceiveResponse :=
  match do_ibc_packet_receive createH cancelH p with
  | Except.ok response => Except.ok response
  | Except.error e =>
    Except.ok { ack := make_ack_fail e, messages := [], events := [] }

/-- The outcome of applying the relayed request locally: the decode
result chained with the dispatched handler's result, discarding the
payloads.  `ok` means the request applied locally. -/
def localOutcome (createH : NewTrade → String → Except String (List Nat))
    (cancelH : String → Nat → Except String CwResponse) (p : IbcPacket) :
    Except String Unit :=
  match from_binary p.data with
  | Except.error e => Except.error e
  | Except.ok (IbcExecuteMsg.Create _ source_chain new_trade) =>
    match createH new_trade source_chain with
    | Except.ok _ => Except.ok ()
    | Except.error e => Except.error e
  | Except.ok (IbcExecuteMsg.CancelRequest source_address _ trade_id) =>
    match cancelH source_address trade_id with
    | Except.ok _ => Except.ok ()
    | Except.error e => Except.error e

/-- The acknowledgment committed by a receive outcome: `none` when the
handler propagated an error (and hence committed no ack). -/
def responseAck : Except String IbcReceiveResponse → Option Ack
  | Except.ok response => some response.ack
  | Except.error _ => none

/-! ## Relay channel counters (`ibc.rs:12-15, 30-59, 117-135`) -/

/-- Save `v` under key `k`, overwriting any previous entry. -/
def mapSave (m : List (String × Nat)) (k : String) (v : Nat) :
    List (String × Nat) :=
  (k, v) :: m.filter (fun p => p.1 ≠ k)

/-- Remove every entry under key `k`. -/
def mapRemove (m : List (String × Nat)) (k : String) : List (String × Nat) :=
  m.filter (fun p => p.1 ≠ k)

/-- Look up key `k`. -/
def mapGet (m : List (String × Nat)) (k : String) : Option Nat :=
  (m.find? (fun p => p.1 = k)).map (fun p => p.2)

/-- The persisted relay bookkeeping: `CONNECTION_COUNTS` and
`TIMEOUT_COUNTS`, both keyed by channel id. -/
structure RelayStore where
  connection_counts : List (String × Nat)
  timeout_counts : List (String × Nat)
deriving DecidableEq, Repr

/-- `ibc_channel_connect` (ibc.rs:30-45): initialise the count for the
channel to zero. -/
def ibc_channel_connect (st : RelayStore) (channel : String) : RelayStore :=
  { st with connection_counts := mapSave st.connection_counts channel 0 }

/-- `ibc_channel_close` (ibc.rs:47-59): remove the `CONNECTION_COUNTS`
entry for the channel.  `TIMEOUT_COUNTS` is not touched, although its
declaration comment says "Reset on channel closure." -/
def ibc_channel_close (st : RelayStore) (channel : String) : RelayStore :=
  { st with connection_counts := mapRemove st.connection_counts channel }

/-- The effect of `ibc_packet_receive`/`do_ibc_packet_receive` on the
relay counters: none — the handler reads the channel id from the packet
but never updates `CONNECTION_COUNTS` (or `TIMEOUT_COUNTS`). -/
def ibc_packet_receive_store (st : RelayStore) (dest_channel : String) :
    RelayStore :=
  st

/-- `ibc_packet_timeout` (ibc.rs:117-135): increment `TIMEOUT_COUNTS` for
the packet's source channel, starting from zero when absent. -/
def ibc_packet_timeout (st : RelayStore) (src_channel : String) : RelayStore :=
  { st with timeout_counts :=
      (mapSave st.timeout_counts src_channel
        ((mapGet st.timeout_counts src_channel).getD 0 + 1)) }

/-! ## Auxiliary definitions used by the theorems -/

/-- Whether an `Except` result is an error. -/
def exceptIsError {ε α : Type} : Except ε α → Bool
  | Except.ok _ => false
  | Except.error _ => true

/-- One successful transition in which any `deposit_escrow` call deposits
exactly the trade's recorded amount. -/
def stepE (s s' : TState) : Prop :=
  ∃ c, exec c s = Except.ok s' ∧
    ∀ d a n, c = Call.deposit d a n → a = s.trade.amount

/-- A freshly created trade: maker 1, amount 100, price 50, with the
maker holding 100 tokens. -/
def s100 : TState := mkInit 1 100 50 7 8 255 0 100 0 0

/-- The state reached from `s100` by `deposit_escrow` of only 5 tokens:
status `Open` with an escrow balance of 5 ≠ amount 100. -/
def s100under : TState :=
  { trade := { maker := 1, taker := none, amount := 100, price := 50, token_mint := 7, escrow_account := 8, status := TradeStatus.Open, created_at := 0, updated_at := 1, bump := 255 }
    makerBal := 95
    takerBal := 0
    otherBal := 0
    escrowBal := 5 }

/-- The state reached from `s100` by a full deposit of 100 tokens. -/
def s100open : TState :=
  { trade := { maker := 1, taker := none, amount := 100, price := 50, token_mint := 7, escrow_account := 8, status := TradeStatus.Open, created_at := 0, updated_at := 1, bump := 255 }
    makerBal := 0
    takerBal := 0
    otherBal := 0
    escrowBal := 100 }

/-- An accepted (`InProgress`) trade with taker 2 bound and 100 tokens in
escrow, quoted price parameterised. -/
def sProg (quoted : Nat) : TState :=
  { trade := { maker := 1, taker := some 2, amount := 100, price := quoted, token_mint := 7, escrow_account := 8, status := TradeStatus.InProgress, created_at := 0, updated_at := 2, bump := 255 }
    makerBal := 0
    takerBal := 0
    otherBal := 0
    escrowBal := 100 }

/-- An initialised price oracle account. -/
def oracleOk : PriceState :=
  { is_initialized := true, admin := 9, price_provider := 9 }

/-- An `Active` offer whose per-token price is 2^63, so that taking 4 or
more units overflows u64. -/
def hugeOffer : Offer :=
  { creator := 1, token_mint := 7, amount := 10, price_per_token := 9223372036854775808, min_amount := 1, max_amount := 10, status := OfferStatus.Active, created_at := 0, updated_at := 0 }

/-- A local trade-creation handler that always rejects, for exercising
the relay failure path. -/
def rejectingCreate : NewTrade → String → Except String (List Nat) :=
  fun _ _ => Except.error "boom"

/-- A local cancel handler that always rejects. -/
def rejectingCancel : String → Nat → Except String CwResponse :=
  fun _ _ => Except.error "boom"

/-- A well-formed inbound `Create` packet. -/
def createPacket : IbcPacket :=
  { dest_channel := "channel-0"
    data := PacketData.wellFormed (IbcExecuteMsg.Create "juno1abc" "juno" { payload := 5 }) }

/-- The empty relay bookkeeping store. -/
def emptyRelayStore : RelayStore :=
  { connection_counts := [], timeout_counts := [] }

/-! ## Helper lemmas -/

theorem setBal_trade (s : TState) (p v : Nat) : (s.setBal p v).trade = s.trade := by
  unfold TState.setBal
  split
  · rfl
  · split <;> rfl

theorem applyCall_of_error (c : Call) (s : TState)
    (h : exceptIsError (exec c s) = true) : applyCall c s = s := by
  unfold applyCall
  cases hx : exec c s with
  | ok s' => rw [hx] at h; simp [exceptIsError] at h
  | error e => rfl

/-! ## C2 — price tolerance at completion -/

/-- C2: the claim states that `complete` rejects with `PriceMismatch`
unless the quoted price is within 100 bps of the oracle price.  In the
code, `verify_price_for_trade` contains no tolerance comparison at all
(`PriceState` stores no prices and the quoted price is ignored), so
`complete_trade` succeeds for EVERY quoted price against an initialised
oracle: in particular a quote 20% off the market completes the trade and
releases the escrow. -/
theorem c2_complete_ignores_price (quoted : Nat) :
    complete_trade (sProg quoted) oracleOk 1 2 3 =
      Except.ok { trade := { maker := 1, taker := some 2, amount := 100, price := quoted, token_mint := 7, escrow_account := 8, status := TradeStatus.Completed, created_at := 0, updated_at := 3, bump := 255 }, makerBal := 0, takerBal := 100, otherBal := 0, escrowBal := 0 } := by
  rfl

/-! ## C9 — the maker may accept their own trade -/

/-- C9: from a funded (`Open`) trade, `accept_trade` performs no check
that the accepting signer differs from the maker: the maker themself is
accepted and bound as taker, and the trade moves to `InProgress`. -/
theorem c9_maker_accepts_own_trade (s : TState) (now : Int)
    (h : s.trade.status = TradeStatus.Open) :
    accept_trade s s.trade.maker now =
      Except.ok { s with trade := { s.trade with taker := some s.trade.maker, status := TradeStatus.InProgress, updated_at := now } } := by
  unfold accept_trade
  rw [h]
  simp

theorem c9_maker_accepts_own_trade_witness :
    s100open.trade.status = TradeStatus.Open ∧
    accept_trade s100open s100open.trade.maker 5 =
      Except.ok { s100open with trade := { s100open.trade with taker := some s100open.trade.maker, status := TradeStatus.InProgress, updated_at := 5 } } :=
  ⟨by decide, c9_maker_accepts_own_trade s100open 5 (by decide)⟩

/-! ## C10 — overflow-checked total price in `take_offer` -/

/-- C10: once the status and amount-bounds guards pass, `take_offer`
computes `amount * price_per_token` with u64 `checked_mul`: when the
mathematical product reaches 2^64 the call fails with `CalculationError`
and no trade-creation CPI is issued; otherwise the CPI receives exactly
the pair `(amount, amount * price_per_token)`. -/
theorem c10_take_offer_checked_mul (offer : Offer) (amount : Nat)
    (hact : offer.status = OfferStatus.Active)
    (hmin : offer.min_amount ≤ amount) (hmax : amount ≤ offer.max_amount) :
    (U64 ≤ amount * offer.price_per_token →
      take_offer offer amount = Except.error OfferError.CalculationError)
    ∧ (amount * offer.price_per_token < U64 →
      take_offer offer amount = Except.ok (amount, amount * offer.price_per_token)) := by
  constructor <;> intro h <;>
    simp [take_offer, checkedMul64, hact, hmin, hmax, Nat.not_lt.mpr h, h]

theorem c10_take_offer_checked_mul_witness :
    (hugeOffer.status = OfferStatus.Active ∧ hugeOffer.min_amount ≤ 4 ∧
      4 ≤ hugeOffer.max_amount ∧ U64 ≤ 4 * hugeOffer.price_per_token) ∧
    take_offer hugeOffer 4 = Except.error OfferError.CalculationError :=
  ⟨⟨by decide, by decide, by decide, by decide⟩,
    (c10_take_offer_checked_mul hugeOffer 4 (by decide) (by decide) (by decide)).1
      (by decide)⟩

/-! ## C5 — creation-time validation -/

/-- C5 counterexample: the claim states that a create call fails with
`InvalidPrice` unless `price > 0` and that a record is only created when
both validations pass; but `create_offer` performs no price validation
and happily creates an `Active` offer with `price_per_token = 0` (and
there is no `InvalidPrice` error in the program at all). -/
theorem c5_zero_price_offer_created :
    create_offer 1 7 10 0 1 10 0 =
      Except.ok { creator := 1, token_mint := 7, amount := 10, price_per_token := 0, min_amount := 1, max_amount := 10, status := OfferStatus.Active, created_at := 0, updated_at := 0 } := by
  decide

/-- C5 (amended): `create_offer` fails with `InvalidAmounts` unless
`min_amount ≤ max_amount ≤ amount`, and creates the `Active` offer record
exactly when that check passes; the price is not validated — any
`price_per_token`, including zero, is accepted (and the Solana
`create_trade` handler validates nothing at all). -/
theorem c5_create_offer_validates_amounts_only
    (creator token_mint amount price_per_token min_amount max_amount : Nat)
    (now : Int) :
    (¬ (min_amount ≤ max_amount ∧ max_amount ≤ amount) →
      create_offer creator token_mint amount price_per_token min_amount
        max_amount now = Except.error OfferError.InvalidAmounts)
    ∧ (min_amount ≤ max_amount → max_amount ≤ amount →
      create_offer creator token_mint amount price_per_token min_amount
        max_amount now =
        Except.ok { creator := creator, token_mint := token_mint, amount := amount, price_per_token := price_per_token, min_amount := min_amount, max_amount := max_amount, status := OfferStatus.Active, created_at := now, updated_at := now }) := by
  constructor
  · intro h
    simp [create_offer, h]
  · intro h1 h2
    simp [create_offer, h1, h2]

theorem c5_create_offer_validates_amounts_only_witness :
    (create_offer 1 7 5 3 6 10 0 = Except.error OfferError.InvalidAmounts)
    ∧ (create_offer 1 7 10 3 1 10 0 =
        Except.ok { creator := 1, token_mint := 7, amount := 10, price_per_token := 3, min_amount := 1, max_amount := 10, status := OfferStatus.Active, created_at := 0, updated_at := 0 }) :=
  ⟨(c5_create_offer_validates_amounts_only 1 7 5 3 6 10 0).1 (by decide),
   (c5_create_offer_validates_amounts_only 1 7 10 3 1 10 0).2 (by decide) (by decide)⟩

/-! ## C3 — cancellation -/

/-- C3 counterexample: the claim states that the maker can cancel a
never-funded trade in status `Created` (succeeding with no fund
movement); but `cancel_trade` requires status `Open`, so cancelling the
freshly created (never funded) trade `s100` fails with
`InvalidTradeStatus` and the trade is not `Cancelled`. -/
theorem c3_cancel_created_fails :
    cancel_trade s100 1 4 = Except.error TxError.InvalidTradeStatus ∧
    s100.trade.maker = 1 ∧ s100.trade.status = TradeStatus.Created := by
  decide

/-- C3 (amended): `cancel_trade` by the maker succeeds only from the
funded status `Open`: from `Created` it fails with `InvalidTradeStatus`
(and, the call being rejected, no fund movement is committed), while
from `Open` — when the escrow holds at least `trade.amount` and the
refund does not overflow the maker's u64 balance — it succeeds, releases
`trade.amount` from escrow back to the maker, and sets the status to
`Cancelled`. -/
theorem c3_cancel_requires_open (s : TState) (now : Int) :
    (s.trade.status = TradeStatus.Created →
      cancel_trade s s.trade.maker now = Except.error TxError.InvalidTradeStatus)
    ∧ (s.trade.status = TradeStatus.Open → s.trade.amount ≤ s.escrowBal →
      s.makerBal + s.trade.amount < U64 →
      cancel_trade s s.trade.maker now =
        Except.ok { s with escrowBal := s.escrowBal - s.trade.amount, makerBal := s.makerBal + s.trade.amount, trade := { s.trade with status := TradeStatus.Cancelled, updated_at := now } }) := by
  constructor
  · intro h
    simp [cancel_trade, h]
  · intro h hesc hovf
    simp [cancel_trade, h, tokenTransfer, Nat.not_lt.mpr hesc, Nat.not_le.mpr hovf]

theorem c3_cancel_requires_open_witness :
    (cancel_trade s100 s100.trade.maker 4 = Except.error TxError.InvalidTradeStatus)
    ∧ (cancel_trade s100open s100open.trade.maker 4 =
        Except.ok { s100open with escrowBal := 0, makerBal := 100, trade := { s100open.trade with status := TradeStatus.Cancelled, updated_at := 4 } }) :=
  ⟨(c3_cancel_requires_open s100 4).1 (by decide),
   (c3_cancel_requires_open s100open 4).2 (by decide) (by decide) (by decide)⟩

/-! ## C4 — rejected calls leave no trace -/

/-- C4: at the ledger-level semantics `applyCall`, every rejected entry
point call leaves the trade record and all token balances exactly as
they were — the hosting ledger commits only fully successful
transactions, so even `deposit_escrow`, which issues its token transfer
before evaluating its guards, leaves no trace when it rejects.  In
particular a `deposit_escrow` call whose depositor is not the maker or
whose trade is not in `Created` status is always rejected. -/
theorem c4_rejected_call_is_noop (c : Call) (s : TState) :
    (exceptIsError (exec c s) = true → applyCall c s = s)
    ∧ (∀ d a n, (d ≠ s.trade.maker ∨ s.trade.status ≠ TradeStatus.Created) →
        exceptIsError (exec (Call.deposit d a n) s) = true) := by
  constructor
  · exact applyCall_of_error c s
  · intro d a n h
    cases ht : tokenTransfer (s.balOf d) s.escrowBal a with
    | error e => simp [exec, deposit_escrow, ht, exceptIsError]
    | ok p =>
      obtain ⟨fromBal, toBal⟩ := p
      rcases h with h | h
      · simp [exec, deposit_escrow, ht, exceptIsError, setBal_trade, Ne.symm h]
      · by_cases hd : s.trade.maker = d
        · simp [exec, deposit_escrow, ht, exceptIsError, setBal_trade, hd, h]
        · simp [exec, deposit_escrow, ht, exceptIsError, setBal_trade, hd]

theorem c4_rejected_call_is_noop_witness :
    (exceptIsError (exec (Call.deposit 2 50 9) s100) = true
      ∧ applyCall (Call.deposit 2 50 9) s100 = s100)
    ∧ exceptIsError (exec (Call.deposit 2 50 9) s100) = true :=
  ⟨⟨(c4_rejected_call_is_noop (Call.deposit 2 50 9) s100).2 2 50 9
      (Or.inl (by decide)),
    (c4_rejected_call_is_noop (Call.deposit 2 50 9) s100).1
      ((c4_rejected_call_is_noop (Call.deposit 2 50 9) s100).2 2 50 9
        (Or.inl (by decide)))⟩,
   (c4_rejected_call_is_noop (Call.deposit 2 50 9) s100).2 2 50 9
      (Or.inl (by decide))⟩

/-! ## C7 — relay channel counters -/

/-- C7: the claim states that each received message increments the
channel's received-message counter and that both counters are reset to
zero when the channel closes.  In the code the receive handler never
updates `CONNECTION_COUNTS` — after connect plus one received packet the
counter still reads 0 — and `ibc_channel_close` removes only the
`CONNECTION_COUNTS` entry: after one timeout and a close, the
`TIMEOUT_COUNTS` entry still reads 1, although its declaration comment
says "Reset on channel closure." -/
theorem c7_relay_counters_diverge :
    (mapGet (ibc_packet_receive_store
        (ibc_channel_connect emptyRelayStore "channel-0") "channel-0").connection_counts
      "channel-0" = some 0)
    ∧ (mapGet (ibc_channel_close
        (ibc_packet_timeout (ibc_channel_connect emptyRelayStore "channel-0")
          "channel-0") "channel-0").timeout_counts "channel-0" = some 1) := by
  constructor <;> rfl

/-! ## C6 — every inbound packet terminates in exactly one ack -/

/-- C6: for every inbound relay packet and every behaviour of the local
`_create_trade` and `cancel_request` applications, `ibc_packet_receive`
never propagates an error as a local fault (it always returns a normal
response, which carries exactly one acknowledgment): the ack is the
success ack exactly when the dispatched Create or Cancel request applied
locally, and otherwise it is the failure ack carrying the rejection
reason as a string. -/
theorem c6_receive_always_acks
    (createH : NewTrade → String → Except String (List Nat))
    (cancelH : String → Nat → Except String CwResponse) (p : IbcPacket) :
    exceptIsError (ibc_packet_receive createH cancelH p) = false
    ∧ (localOutcome createH cancelH p = Except.ok () →
        responseAck (ibc_packet_receive createH cancelH p) = some make_ack_success)
    ∧ (∀ e, localOutcome createH cancelH p = Except.error e →
        responseAck (ibc_packet_receive createH cancelH p) =
          some (make_ack_fail e)) := by
  obtain ⟨ch, data⟩ := p
  cases data with
  | malformed err =>
    refine ⟨?_, ?_, ?_⟩ <;>
      simp [ibc_packet_receive, do_ibc_packet_receive, from_binary, localOutcome,
        responseAck, exceptIsError]
  | wellFormed msg =>
    cases msg with
    | Create sa sc nt =>
      cases hc : createH nt sc with
      | ok msgs =>
        refine ⟨?_, ?_, ?_⟩ <;>
          simp [ibc_packet_receive, do_ibc_packet_receive, from_binary,
            execute_create_trade, localOutcome, responseAck, exceptIsError, hc]
      | error e0 =>
        refine ⟨?_, ?_, ?_⟩ <;>
          simp [ibc_packet_receive, do_ibc_packet_receive, from_binary,
            execute_create_trade, localOutcome, responseAck, exceptIsError, hc]
    | CancelRequest sa sc tid =>
      cases hx : cancelH sa tid with
      | ok resp =>
        refine ⟨?_, ?_, ?_⟩ <;>
          simp [ibc_packet_receive, do_ibc_packet_receive, from_binary,
            execute_cancel_trade, localOutcome, responseAck, exceptIsError, hx]
      | error e0 =>
        refine ⟨?_, ?_, ?_⟩ <;>
          simp [ibc_packet_receive, do_ibc_packet_receive, from_binary,
            execute_cancel_trade, localOutcome, responseAck, exceptIsError, hx]

theorem c6_receive_always_acks_witness :
    exceptIsError (ibc_packet_receive rejectingCreate rejectingCancel createPacket)
      = false
    ∧ responseAck (ibc_packet_receive rejectingCreate rejectingCancel createPacket)
      = some (make_ack_fail "boom") :=
  ⟨(c6_receive_always_acks rejectingCreate rejectingCancel createPacket).1,
   (c6_receive_always_acks rejectingCreate rejectingCancel createPacket).2.2
     "boom" rfl⟩

/-! ## C8 — calling the same transition twice -/

/-- C8 counterexample: the claim states the second of two identical
back-to-back calls always fails with `InvalidStatus`.  But
`deposit_escrow` issues its token transfer BEFORE its guards: after the
maker (starting with exactly 100 tokens) deposits 100, an identical
second deposit fails with `InsufficientFunds` — the transfer is
attempted first and the maker's balance no longer covers it — not with
`InvalidTradeStatus`. -/
theorem c8_second_deposit_insufficient :
    exec (Call.deposit 1 100 1) s100 = Except.ok s100open
    ∧ exec (Call.deposit 1 100 1) s100open = Except.error TxError.InsufficientFunds
    ∧ TxError.InsufficientFunds ≠ TxError.InvalidTradeStatus := by
  refine ⟨by decide, by decide, by decide⟩

theorem deposit_rejected_when_not_created (s : TState) (d a : Nat) (n : Int)
    (hmk : s.trade.maker = d) (hst : s.trade.status ≠ TradeStatus.Created) :
    exceptIsError (exec (Call.deposit d a n) s) = true
    ∧ (a ≤ s.balOf d → s.escrowBal + a < U64 →
        exec (Call.deposit d a n) s = Except.error TxError.InvalidTradeStatus) := by
  constructor
  · cases ht : tokenTransfer (s.balOf d) s.escrowBal a with
    | error e => simp [exec, deposit_escrow, ht, exceptIsError]
    | ok p =>
      obtain ⟨f, t⟩ := p
      simp [exec, deposit_escrow, ht, exceptIsError, setBal_trade, hmk, hst]
  · intro hbal hovf
    simp [exec, deposit_escrow, tokenTransfer, Nat.not_lt.mpr hbal,
      Nat.not_le.mpr hovf, setBal_trade, hmk, hst]

/-- C8 (amended): after any successful transition, immediately repeating
the same call is always rejected and the state after both calls equals
the state after the first alone.  The rejection is `InvalidTradeStatus`
for `accept`, `complete`, `cancel` and `dispute`; for `deposit_escrow`
it is `InvalidTradeStatus` provided the depositor's balance still covers
the deposit and the escrow sum does not overflow (the transfer is issued
before the status guard), and otherwise the second deposit is rejected
by the token transfer itself. -/
theorem c8_repeat_rejected (c : Call) (s s' : TState)
    (h : exec c s = Except.ok s') :
    exceptIsError (exec c s') = true
    ∧ applyCall c s' = s'
    ∧ ((∀ d a n, c ≠ Call.deposit d a n) →
        exec c s' = Except.error TxError.InvalidTradeStatus)
    ∧ (∀ d a n, c = Call.deposit d a n → a ≤ TState.balOf s' d →
        s'.escrowBal + a < U64 →
        exec c s' = Except.error TxError.InvalidTradeStatus) := by
  cases c with
  | accept t n =>
    simp only [exec, accept_trade] at h
    split at h
    case isFalse => simp at h
    case isTrue hst =>
      injection h with h
      subst h
      refine ⟨?_, ?_, ?_, ?_⟩
      · simp [exec, accept_trade, exceptIsError]
      · exact applyCall_of_error _ _ (by simp [exec, accept_trade, exceptIsError])
      · intro _
        simp [exec, accept_trade]
      · intro d a n' hC
        simp at hC
  | complete o mS tS n =>
    simp only [exec, complete_trade] at h
    split at h
    case isTrue => simp at h
    case isFalse hm =>
      split at h
      case isTrue => simp at h
      case isFalse htk =>
        split at h
        case isTrue => simp at h
        case isFalse hst =>
          rw [not_not] at hm htk
          cases hv : verify_price_for_trade o s.trade.price with
          | error e => rw [hv] at h; simp at h
          | ok u =>
            rw [hv] at h
            cases ht : tokenTransfer s.escrowBal (s.balOf tS) s.trade.amount with
            | error e => rw [ht] at h; simp at h
            | ok p =>
              obtain ⟨fromBal, toBal⟩ := p
              rw [ht] at h
              injection h with h
              subst h
              refine ⟨?_, ?_, ?_, ?_⟩
              · simp [exec, complete_trade, exceptIsError, setBal_trade, hm, htk]
              · exact applyCall_of_error _ _
                  (by simp [exec, complete_trade, exceptIsError, setBal_trade, hm, htk])
              · intro _
                simp [exec, complete_trade, setBal_trade, hm, htk]
              · intro d a n' hC
                simp at hC
  | cancel caller n =>
    simp only [exec, cancel_trade] at h
    split at h
    case isTrue => simp at h
    case isFalse hcal =>
      split at h
      case isTrue => simp at h
      case isFalse hst =>
        rw [not_not] at hcal
        cases ht : tokenTransfer s.escrowBal s.makerBal s.trade.amount with
        | error e => rw [ht] at h; simp at h
        | ok p =>
          obtain ⟨fromBal, toBal⟩ := p
          rw [ht] at h
          injection h with h
          subst h
          refine ⟨?_, ?_, ?_, ?_⟩
          · simp [exec, cancel_trade, exceptIsError, hcal]
          · exact applyCall_of_error _ _
              (by simp [exec, cancel_trade, exceptIsError, hcal])
          · intro _
            simp [exec, cancel_trade, hcal]
          · intro d a n' hC
            simp at hC
  | dispute dd n =>
    simp only [exec, dispute_trade] at h
    split at h
    case isFalse => simp at h
    case isTrue hauth =>
      split at h
      case isFalse => simp at h
      case isTrue hst =>
        injection h with h
        subst h
        refine ⟨?_, ?_, ?_, ?_⟩
        · simp [exec, dispute_trade, exceptIsError, hauth]
        · exact applyCall_of_error _ _
            (by simp [exec, dispute_trade, exceptIsError, hauth])
        · intro _
          simp [exec, dispute_trade, hauth]
        · intro d a n' hC
          simp at hC
  | deposit dd aa n =>
    simp only [exec, deposit_escrow] at h
    cases ht : tokenTransfer (s.balOf dd) s.escrowBal aa with
    | error e => rw [ht] at h; simp at h
    | ok p =>
      obtain ⟨fromBal, toBal⟩ := p
      rw [ht] at h
      simp only [setBal_trade] at h
      split at h
      case isTrue => simp at h
      case isFalse hd =>
        split at h
        case isTrue => simp at h
        case isFalse hs =>
          rw [not_not] at hd hs
          injection h with h
          have hmk2 : s'.trade.maker = dd := by
            rw [← h]; simp [setBal_trade, hd]
          have hst2 : s'.trade.status ≠ TradeStatus.Created := by
            rw [← h]; simp [setBal_trade]
          have hrej := deposit_rejected_when_not_created s' dd aa n hmk2 hst2
          refine ⟨hrej.1, applyCall_of_error _ _ hrej.1, ?_, ?_⟩
          · intro hne
            exact absurd rfl (hne dd aa n)
          · intro d a n' hC hbal hovf
            injection hC with h1 h2 h3
            subst h1
            subst h2
            subst h3
            exact hrej.2 hbal hovf

theorem c8_repeat_rejected_witness :
    exec (Call.accept 2 2) s100open = Except.ok (sProg 50)
    ∧ exceptIsError (exec (Call.accept 2 2) (sProg 50)) = true
    ∧ applyCall (Call.accept 2 2) (sProg 50) = sProg 50
    ∧ exec (Call.accept 2 2) (sProg 50) = Except.error TxError.InvalidTradeStatus :=
  ⟨by decide,
   (c8_repeat_rejected (Call.accept 2 2) s100open (sProg 50) (by decide)).1,
   (c8_repeat_rejected (Call.accept 2 2) s100open (sProg 50) (by decide)).2.1,
   (c8_repeat_rejected (Call.accept 2 2) s100open (sProg 50) (by decide)).2.2.1
     (fun d a n h => Call.noConfusion h)⟩

/-! ## C1 — the escrow balance invariant -/

/-- C1 counterexample: the claim states every reachable state satisfies
the escrow invariant (balance positive iff status funded, equal to
`trade.amount` there, zero elsewhere) and that every entry point
preserves it.  But `deposit_escrow` accepts a caller-chosen amount:
depositing only 5 on the 100-token trade `s100` succeeds and reaches a
state with status `Open` whose escrow balance 5 differs from the
recorded amount 100. -/
theorem c1_partial_deposit_breaks_invariant :
    stepR s100 s100under ∧ ¬ escrowInv s100under :=
  ⟨⟨Call.deposit 1 5 1, by decide⟩, by decide⟩

theorem escrowInv_init (maker amount price token_mint escrow_account bump : Nat)
    (now : Int) (mB tB oB : Nat) :
    escrowInv (mkInit maker amount price token_mint escrow_account bump now
      mB tB oB) := by
  simp [escrowInv, mkInit, create_trade, fundedStatus]

theorem stepE_preserves (s s' : TState) (hamt : 0 < s.trade.amount)
    (hinv : escrowInv s) (hstep : stepE s s') :
    escrowInv s' ∧ s'.trade.amount = s.trade.amount := by
  obtain ⟨hiff, hfund, hzero⟩ := hinv
  obtain ⟨c, hc, hdep⟩ := hstep
  cases c with
  | accept t n =>
    simp only [exec, accept_trade] at hc
    split at hc
    case isFalse => simp at hc
    case isTrue hst =>
      injection hc with hc
      have h1 := hfund (Or.inl hst)
      have h2 := hiff.mpr (Or.inl hst)
      rw [← hc]
      simp [escrowInv, fundedStatus]
      omega
  | dispute dd n =>
    simp only [exec, dispute_trade] at hc
    split at hc
    case isFalse => simp at hc
    case isTrue hauth =>
      split at hc
      case isFalse => simp at hc
      case isTrue hst =>
        injection hc with hc
        have h1 := hfund (Or.inr (Or.inl hst))
        have h2 := hiff.mpr (Or.inr (Or.inl hst))
        rw [← hc]
        simp [escrowInv, fundedStatus]
        omega
  | deposit dd aa n =>
    have haa := hdep dd aa n rfl
    simp only [exec, deposit_escrow] at hc
    cases ht : tokenTransfer (s.balOf dd) s.escrowBal aa with
    | error e => rw [ht] at hc; simp at hc
    | ok p =>
      obtain ⟨f, t⟩ := p
      rw [ht] at hc
      simp only [setBal_trade] at hc
      split at hc
      case isTrue => simp at hc
      case isFalse hd =>
        split at hc
        case isTrue => simp at hc
        case isFalse hs =>
          rw [not_not] at hd hs
          injection hc with hc
          unfold tokenTransfer at ht
          split at ht
          case isTrue => simp at ht
          case isFalse =>
            split at ht
            case isTrue => simp at ht
            case isFalse =>
              injection ht with ht
              rw [Prod.mk.injEq] at ht
              obtain ⟨ht1, ht2⟩ := ht
              have h0 : s.escrowBal = 0 := hzero (by simp [fundedStatus, hs])
              rw [← hc]
              simp [escrowInv, fundedStatus, setBal_trade]
              omega
  | cancel caller n =>
    simp only [exec, cancel_trade] at hc
    split at hc
    case isTrue => simp at hc
    case isFalse hcal =>
      split at hc
      case isTrue => simp at hc
      case isFalse hst =>
        rw [not_not] at hst
        have h1 := hfund (Or.inl hst)
        cases ht : tokenTransfer s.escrowBal s.makerBal s.trade.amount with
        | error e => rw [ht] at hc; simp at hc
        | ok p =>
          obtain ⟨f, t⟩ := p
          rw [ht] at hc
          injection hc with hc
          unfold tokenTransfer at ht
          split at ht
          case isTrue => simp at ht
          case isFalse =>
            split at ht
            case isTrue => simp at ht
            case isFalse =>
              injection ht with ht
              rw [Prod.mk.injEq] at ht
              obtain ⟨ht1, ht2⟩ := ht
              rw [← hc]
              simp [escrowInv, fundedStatus]
              omega
  | complete o mS tS n =>
    simp only [exec, complete_trade] at hc
    split at hc
    case isTrue => simp at hc
    case isFalse hm =>
      split at hc
      case isTrue => simp at hc
      case isFalse htk =>
        split at hc
        case isTrue => simp at hc
        case isFalse hst =>
          rw [not_not] at hst
          have h1 := hfund (Or.inr (Or.inl hst))
          cases hv : verify_price_for_trade o s.trade.price with
          | error e => rw [hv] at hc; simp at hc
          | ok u =>
            rw [hv] at hc
            cases ht : tokenTransfer s.escrowBal (s.balOf tS) s.trade.amount with
            | error e => rw [ht] at hc; simp at hc
            | ok p =>
              obtain ⟨f, t⟩ := p
              rw [ht] at hc
              injection hc with hc
              unfold tokenTransfer at ht
              split at ht
              case isTrue => simp at ht
              case isFalse =>
                split at ht
                case isTrue => simp at ht
                case isFalse =>
                  injection ht with ht
                  rw [Prod.mk.injEq] at ht
                  obtain ⟨ht1, ht2⟩ := ht
                  rw [← hc]
                  simp [escrowInv, fundedStatus, setBal_trade]
                  omega

/-- C1 (amended): the escrow invariant — balance positive iff the status
is in the funded set {`Open`, `InProgress`, `Disputed`}, equal to the
trade's recorded amount while there, and zero otherwise — holds in every
state reachable from a freshly created trade, PROVIDED the trade amount
is positive and every `deposit_escrow` call deposits exactly the trade's
recorded amount.  (Without the proviso the invariant fails: the code
never ties the deposited amount to `trade.amount` — see the
counterexample.) -/
theorem c1_escrow_invariant
    (maker amount price token_mint escrow_account bump : Nat) (now : Int)
    (mB tB oB : Nat) (s : TState) (hamt : 0 < amount)
    (hreach : Relation.ReflTransGen stepE
      (mkInit maker amount price token_mint escrow_account bump now mB tB oB) s) :
    escrowInv s := by
  have H : escrowInv s ∧ s.trade.amount = amount := by
    induction hreach with
    | refl =>
      exact ⟨escrowInv_init maker amount price token_mint escrow_account bump
        now mB tB oB, rfl⟩
    | tail _ hstep ih =>
      obtain ⟨hinv, heq⟩ := ih
      have h2 := stepE_preserves _ _ (by omega) hinv hstep
      exact ⟨h2.1, by rw [h2.2, heq]⟩
  exact H.1

theorem c1_escrow_invariant_witness :
    0 < 100 ∧ escrowInv s100open :=
  ⟨by decide,
   c1_escrow_invariant 1 100 50 7 8 255 0 100 0 0 s100open (by decide)
     (Relation.ReflTransGen.single
       ⟨Call.deposit 1 100 1, by decide,
        fun d a n hC => by injection hC with h1 h2 h3; exact h2.symm⟩)⟩
